import Mathlib

/-
Shallow embedding of the ingestion / normalization / alignment / decomposition
core of hotel_dashboard.py (functions load_insee_data and the seasonal
decomposition block of main).

Modelling choices:
* A delimited row is the list of its already-decoded string fields; a table is
  a list of rows.  The CSV reader's column count (len(df.columns) with
  header=None) is fixed by the first row.
* 64-bit floats are modelled as exact rationals.  Every numeric string in the
  claims parses to an exactly representable value, and every claimed identity
  is exact in this model.  parseDecimal models float() on plain decimal
  strings (optional sign, digits, optional fractional part), the only shapes
  the data format produces.
* pandas timestamps (first-of-month dates from the %Y-%m parse) are modelled
  as month indices year*12 + (month-1).
* Vectorized pandas column operations are modelled columnwise: in particular
  Series.astype(float) raises as soon as any cell fails to convert, which the
  embedding reflects by making the whole normalization return none.
* String primitives are re-implemented structurally over List Char so that
  every definition evaluates by kernel reduction.
-/

namespace HotelDashboard

unseal Rat.add Rat.mul Rat.inv Rat.sub Rat.ofScientific

/-- Split a character list on a separator, keeping empty segments, as
Python str.split does. -/
def splitOnChar (c : Char) : List Char → List (List Char)
  | [] => [[]]
  | a :: rest =>
    match splitOnChar c rest with
    | [] => if a = c then [[], []] else [[a]]
    | h :: t => if a = c then [] :: h :: t else (a :: h) :: t

/-- Parse a nonempty all-digit character list as a natural number. -/
def digitsVal (l : List Char) : Option Nat :=
  if !l.isEmpty && l.all Char.isDigit then
    some (l.foldl (fun n c => n * 10 + (c.toNat - 48)) 0)
  else none

/-- pd.to_datetime(-, format="%Y-%m", errors="coerce") on one cell: a
"YYYY-MM" string becomes the month index year*12 + (month-1); anything else
becomes NaT, modelled as none. -/
def parseMonth (s : List Char) : Option Nat :=
  match splitOnChar '-' s with
  | [y, m] =>
    if m.length ≤ 2 then
      match digitsVal y, digitsVal m with
      | some yn, some mn =>
        if 1 ≤ mn && mn ≤ 12 then some (yn * 12 + (mn - 1)) else none
      | _, _ => none
    else none
  | _ => none

/-- The unsigned part of float(): digits with an optional fractional part. -/
def parseUnsigned (t : List Char) : Option ℚ :=
  match splitOnChar '.' t with
  | [a] => (digitsVal a).map (fun n => (n : ℚ))
  | [a, b] =>
    if a.isEmpty && b.isEmpty then none
    else
      match (if a.isEmpty then some 0 else digitsVal a),
            (if b.isEmpty then some 0 else digitsVal b) with
      | some n, some f => some ((n : ℚ) + (f : ℚ) / (10 : ℚ) ^ b.length)
      | _, _ => none
  | _ => none

/-- float() on a plain decimal string; none models ValueError. -/
def parseDecimal (s : List Char) : Option ℚ :=
  match s with
  | '-' :: rest => (parseUnsigned rest).map (fun q => -q)
  | '+' :: rest => parseUnsigned rest
  | _ => parseUnsigned s

/-- One cell of Series.astype(float) after astype(str): a missing cell
(rendered "nan" by astype(str)) becomes NaN, i.e. some none; an unparseable
string raises ValueError, i.e. none; a parsed number is some (some q). -/
def toFloat? (s : List Char) : Option (Option ℚ) :=
  if s = ['n', 'a', 'n'] then some none
  else (parseDecimal s).map some

/-- str.replace('"', ''). -/
def stripQuotes (s : String) : String :=
  String.mk (s.toList.filter (fun c => c ≠ '"'))

/-- str.replace(',', '.'). -/
def commaToDot (s : String) : String :=
  String.mk (s.toList.map (fun c => if c = ',' then '.' else c))

/-- The first three fields of a delimited row: date, value, status. -/
structure RawRow where
  date : String
  value : String
  status : String
deriving DecidableEq, Repr

/-- View a row as its first three columns (the only ones normalization touches). -/
def toRawRow (r : List String) : RawRow :=
  ⟨r.getD 0 "", r.getD 1 "", r.getD 2 ""⟩

/-- A normalized monthly observation. -/
structure Obs where
  timestamp : Nat
  value : ℚ
  status : String
  region : String
deriving DecidableEq, Repr

/-- The value pipeline of line 62: astype(str), strip quotes, decimal comma to
decimal point, astype(float). -/
def rowValue (r : RawRow) : Option (Option ℚ) :=
  toFloat? ((commaToDot (stripQuotes r.value)).toList)

/-- The date pipeline of lines 65-66: strip quotes, %Y-%m parse with coercion. -/
def rowDate (r : RawRow) : Option Nat :=
  parseMonth ((stripQuotes r.date)).toList

/-- The observation a row contributes after the dropna of line 72: present iff
the date parsed and the value converted to a finite number. -/
def rowObs? (region : String) (r : RawRow) : Option Obs :=
  match rowDate r, rowValue r with
  | some t, some (some q) => some ⟨t, q, stripQuotes r.status, region⟩
  | _, _ => none

/-- df.sort_values("Date"): sort ascending by timestamp. -/
def sortObs (l : List Obs) : List Obs :=
  List.insertionSort (fun a b => a.timestamp ≤ b.timestamp) l

/-- Lines 60-75 applied to the first three columns.  The value conversion is
vectorized, so a single conversion error aborts the whole call (none); rows
whose date is NaT or whose value is NaN are dropped; the rest is sorted. -/
def normalizeRows (region : String) (rows : List RawRow) : Option (List Obs) :=
  if rows.all (fun r => (rowValue r).isSome) then
    some (sortObs (rows.filterMap (rowObs? region)))
  else none

/-- What load_insee_data hands back: a normalized series (≥ 3 columns, no
exception), the raw table with a Region column appended (< 3 columns), or the
None produced by the outer exception handler. -/
inductive LoadResult where
  | series : List Obs → LoadResult
  | raw : List (List String) → LoadResult
  | failed : LoadResult
deriving DecidableEq, Repr

/-- len(df.columns) for a header-less read: fixed by the first row. -/
def tableWidth (rows : List (List String)) : Nat :=
  (rows.head?.map List.length).getD 0

/-- Lines 52-79 of load_insee_data, from the decoded table onwards. -/
def load_insee_data (region : String) (rows : List (List String)) : LoadResult :=
  if 3 ≤ tableWidth rows then
    match normalizeRows region (rows.map toRawRow) with
    | some obs => .series obs
    | none => .failed
  else
    .raw (rows.map (fun r => r ++ [region]))

/-- pat is a leading block of the second list. -/
def leadsWith : List Char → List Char → Bool
  | [], _ => true
  | _ :: _, [] => false
  | p :: ps, c :: cs => p = c && leadsWith ps cs

/-- Python's substring test: pat in s. -/
def containsSub (pat : List Char) : List Char → Bool
  | [] => pat.isEmpty
  | c :: cs => leadsWith pat (c :: cs) || containsSub pat cs

/-- f.endswith(".csv") (line 30). -/
def isCsvName (f : String) : Bool :=
  leadsWith (".csv".toList.reverse) f.toList.reverse

/-- 'valeurs' in f.lower() or 'donnees' in f.lower() (line 37). -/
def markerMatch (f : String) : Bool :=
  let l := f.toList.map Char.toLower
  containsSub ("valeurs".toList) l || containsSub ("donnees".toList) l

/-- Lines 30-41: keep the .csv entries, prefer the first marker-named one,
fall back to the first .csv entry, and fail (none, the error return) when the
archive holds no .csv entry at all. -/
def selectDataFile (names : List String) : Option String :=
  let csvs := names.filter isCsvName
  if csvs.isEmpty then none
  else if (csvs.filter markerMatch).isEmpty then csvs.head?
  else (csvs.filter markerMatch).head?

/-- The (timestamp, value) pairs of set_index("Date")[value_col]. -/
def pts (obs : List Obs) : List (Nat × ℚ) :=
  obs.map (fun o => (o.timestamp, o.value))

/-- The contiguous month grid from lo to hi inclusive. -/
def monthsRange (lo hi : Nat) : List Nat :=
  (List.range (hi + 1 - lo)).map (fun i => lo + i)

/-- asfreq("MS"): one point per calendar month from the first to the last
timestamp; a month absent from the index becomes missing (NaN). -/
def asfreqMS : List (Nat × ℚ) → List (Option ℚ)
  | [] => []
  | p :: rest =>
    (monthsRange p.1 ((p :: rest).getLastD p).1).map
      (fun t => ((p :: rest).find? (fun q => q.1 == t)).map Prod.snd)

/-- The nearest known point at or before position k. -/
def prevKnown (v : List (Option ℚ)) (k : Nat) : Option (Nat × ℚ) :=
  ((List.range (k + 1)).reverse.filterMap
    (fun i => (v.getD i none).map (fun x => (i, x)))).head?

/-- The nearest known point at or after position k. -/
def nextKnown (v : List (Option ℚ)) (k : Nat) : Option (Nat × ℚ) :=
  (((List.range (v.length - k)).map (fun j => k + j)).filterMap
    (fun i => (v.getD i none).map (fun x => (i, x)))).head?

/-- One point of Series.interpolate(method="linear") with the default forward
limit direction: a known point is kept; an interior gap is filled linearly by
position between the nearest known neighbors; a point after the last known
value repeats it; a point before the first known value stays missing. -/
def interpAt (v : List (Option ℚ)) (k : Nat) : Option ℚ :=
  match v.getD k none with
  | some x => some x
  | none =>
    match prevKnown v k, nextKnown v k with
    | some (i, a), some (j, b) =>
      some (a + (b - a) * (((k : ℚ) - (i : ℚ)) / ((j : ℚ) - (i : ℚ))))
    | some (_, a), none => some a
    | _, _ => none

/-- Series.interpolate(method="linear"), pointwise over the grid. -/
def interpolateLinear (v : List (Option ℚ)) : List (Option ℚ) :=
  (List.range v.length).map (interpAt v)

/-- The values actually present (the NaN-skipping of Series.mean). -/
def knownValues (v : List (Option ℚ)) : List ℚ :=
  v.filterMap id

/-- Series.mean(): NaN-skipping arithmetic mean. -/
def seriesMean (v : List (Option ℚ)) : ℚ :=
  (knownValues v).sum / (knownValues v).length

/-- fillna(mean of this same series) (line 363), applied after interpolation. -/
def fillnaMean (v : List (Option ℚ)) : List (Option ℚ) :=
  v.map (fun o => some (o.getD (seriesMean v)))

/-- Lines 356-363: reindex onto the monthly grid, interpolate, mean-fill. -/
def alignValues (obs : List Obs) : List ℚ :=
  let g := fillnaMean (interpolateLinear (asfreqMS (pts obs)))
  g.map (fun o => o.getD 0)

/-- The trend of seasonal_decompose(period=12): convolution with the
even-period filter [1/2, 1, ..., 1, 1/2] / 12, defined only where the 13-tap
window fits (statsmodels pads 6 NaN at the head and 6 at the tail). -/
def trendAt (x : List ℚ) (k : Nat) : Option ℚ :=
  if 6 ≤ k ∧ k + 6 < x.length then
    some ((x.getD (k-6) 0 / 2 + x.getD (k-5) 0 + x.getD (k-4) 0 + x.getD (k-3) 0 +
           x.getD (k-2) 0 + x.getD (k-1) 0 + x.getD k 0 + x.getD (k+1) 0 +
           x.getD (k+2) 0 + x.getD (k+3) 0 + x.getD (k+4) 0 + x.getD (k+5) 0 +
           x.getD (k+6) 0 / 2) / 12)
  else none

/-- The trend component, index-aligned with x. -/
def trendList (x : List ℚ) : List (Option ℚ) :=
  (List.range x.length).map (trendAt x)

/-- detrended = observed - trend where the trend exists. -/
def detrendedAt (x : List ℚ) (k : Nat) : Option ℚ :=
  (trendAt x k).map (fun t => x.getD k 0 - t)

/-- The defined detrended values of x[i::12] (month-position class i). -/
def classVals (x : List ℚ) (i : Nat) : List ℚ :=
  ((List.range x.length).filter (fun k => k % 12 == i)).filterMap (detrendedAt x)

/-- Raw seasonal index: the nanmean of the detrended values at position i. -/
def rawSeasonal (x : List ℚ) (i : Nat) : ℚ :=
  (classVals x i).sum / (classVals x i).length

/-- Normalized seasonal index: the raw index minus the mean of the 12 raw
indices (the identifiability normalization of seasonal_decompose). -/
def seasonalIndex (x : List ℚ) (i : Nat) : ℚ :=
  rawSeasonal x i - (((List.range 12).map (rawSeasonal x)).sum) / 12

/-- np.tile of the 12 normalized indices across the aligned length. -/
def seasonalList (x : List ℚ) : List ℚ :=
  (List.range x.length).map (fun k => seasonalIndex x (k % 12))

/-- resid = observed - trend - seasonal where the trend exists. -/
def residAt (x : List ℚ) (k : Nat) : Option ℚ :=
  (trendAt x k).map (fun t => x.getD k 0 - t - seasonalIndex x (k % 12))

/-- The residual component, index-aligned with x. -/
def residList (x : List ℚ) : List (Option ℚ) :=
  (List.range x.length).map (residAt x)

/-- The three components of seasonal_decompose(model="additive", period=12). -/
structure Decomposition where
  trend : List (Option ℚ)
  seasonal : List ℚ
  resid : List (Option ℚ)
deriving DecidableEq, Repr

/-- Outcome of the decomposition block: a decomposition, or the silent skip
("insufficient history") when a length guard fails. -/
inductive DecompResult where
  | done : Decomposition → DecompResult
  | insufficientHistory : DecompResult
deriving DecidableEq, Repr

/-- Lines 352-366 of main: the outer len(processed) > 24 guard, alignment onto
the monthly grid, the inner len(aligned) > 24 guard, then seasonal_decompose. -/
def runDecomposition (obs : List Obs) : DecompResult :=
  if 24 < obs.length then
    let x := alignValues obs
    if 24 < x.length then
      .done ⟨trendList x, seasonalList x, residList x⟩
    else .insufficientHistory
  else .insufficientHistory

/-- The three-row scenario of the spec: two valid rows and one row whose value
field does not parse. -/
def scenarioRows : List (List String) :=
  [["2020-01", "10,0", "A"], ["2020-02", "20,0", "A"], ["2020-03", "xx", "A"]]

/-- 25 contiguous monthly observations (enough history to decompose). -/
def wObs : List Obs :=
  (List.range 25).map (fun i => ⟨i, 1, "A", "R"⟩)

/-- Jan 2020 .. Dec 2020: 12 contiguous monthly observations. -/
def obs12 : List Obs :=
  (List.range 12).map (fun i => ⟨24240 + i, 1, "A", "R"⟩)

/-- Two observations 30 months apart: a short series spanning a long grid. -/
def obsGap : List Obs :=
  [⟨0, 1, "A", "R"⟩, ⟨29, 2, "A", "R"⟩]

/-- Two contiguous monthly observations. -/
def obs2c : List Obs :=
  [⟨5, 3, "A", "R"⟩, ⟨6, 4, "A", "R"⟩]

/-- Modelled from the spec: the plain mean of the 12 values starting at index
a, the "moving average of window size 12" in the spec's words; the centered
moving average at an even window is the mean of two adjacent such windows. -/
def window12Mean (x : List ℚ) (a : Nat) : ℚ :=
  (x.getD a 0 + x.getD (a+1) 0 + x.getD (a+2) 0 + x.getD (a+3) 0 + x.getD (a+4) 0 +
   x.getD (a+5) 0 + x.getD (a+6) 0 + x.getD (a+7) 0 + x.getD (a+8) 0 + x.getD (a+9) 0 +
   x.getD (a+10) 0 + x.getD (a+11) 0) / 12

/-- The decomposition runDecomposition produces on wObs. -/
def wDecomp : Decomposition :=
  ⟨trendList (alignValues wObs), seasonalList (alignValues wObs),
   residList (alignValues wObs)⟩

/-- Claim C1 (code-bug evaluation): on the spec's three-row scenario the
vectorized value conversion hits the unparseable "xx" and the whole call
returns the failed (None) outcome with zero Observations, instead of dropping
only the malformed row; without that row the two valid rows do load as
Jan 2020 = 10 and Feb 2020 = 20; and a row whose date (rather than value)
fails to parse is indeed dropped silently, as the claim describes. -/
theorem C1_value_error_aborts_load :
    load_insee_data "Marne" scenarioRows = .failed ∧
    load_insee_data "Marne" (scenarioRows.take 2) =
      .series [⟨24240, 10, "A", "Marne"⟩, ⟨24241, 20, "A", "Marne"⟩] ∧
    load_insee_data "Marne" [["2020-01", "10,0", "A"], ["xx", "20,0", "A"]] =
      .series [⟨24240, 10, "A", "Marne"⟩] := by
  decide

/-- Claim C2 (counterexample): two valid rows carrying the same calendar
month both survive normalization, so the resulting Series has a duplicate
timestamp and is not strictly increasing - there is no last-wins
deduplication. -/
theorem C2_duplicate_months_kept :
    load_insee_data "R" [["2020-01", "1,0", "A"], ["2020-01", "2,0", "B"]] =
      .series [⟨24240, 1, "A", "R"⟩, ⟨24240, 2, "B", "R"⟩] ∧
    ¬ List.Chain' (fun a b : Obs => a.timestamp < b.timestamp)
        [⟨24240, 1, "A", "R"⟩, ⟨24240, 2, "B", "R"⟩] := by
  refine ⟨by decide, ?_⟩
  intro hch
  rw [List.chain'_cons] at hch
  exact absurd hch.1 (by decide)

/-- Claim C2 (amended): a successfully normalized Series is sorted
non-decreasing by timestamp and is a permutation of the surviving per-row
observations, so records sharing a month are all kept. -/
theorem C2_sorted_duplicates_kept (region : String) (rows : List RawRow)
    (obs : List Obs) (h : normalizeRows region rows = some obs) :
    List.Sorted (fun a b : Obs => a.timestamp ≤ b.timestamp) obs ∧
    obs.Perm (rows.filterMap (rowObs? region)) := by
  rw [normalizeRows] at h
  by_cases hall : rows.all (fun r => (rowValue r).isSome) = true
  · rw [if_pos hall] at h
    have hobs : obs = sortObs (rows.filterMap (rowObs? region)) :=
      (Option.some.inj h).symm
    subst hobs
    haveI : IsTotal Obs (fun a b : Obs => a.timestamp ≤ b.timestamp) :=
      ⟨fun a b => Nat.le_total a.timestamp b.timestamp⟩
    haveI : IsTrans Obs (fun a b : Obs => a.timestamp ≤ b.timestamp) :=
      ⟨fun _ _ _ hab hbc => Nat.le_trans hab hbc⟩
    exact ⟨List.sorted_insertionSort _ _, List.perm_insertionSort _ _⟩
  · rw [if_neg hall] at h
    cases h

/-- Claim C2 witness: the amended statement applied to the duplicate-month
input. -/
theorem C2_sorted_duplicates_kept_witness :
    List.Sorted (fun a b : Obs => a.timestamp ≤ b.timestamp)
      [⟨24240, 1, "A", "R"⟩, ⟨24240, 2, "B", "R"⟩] ∧
    ([⟨24240, 1, "A", "R"⟩, ⟨24240, 2, "B", "R"⟩] : List Obs).Perm
      ([⟨"2020-01", "1,0", "A"⟩, ⟨"2020-01", "2,0", "B"⟩].filterMap (rowObs? "R")) :=
  C2_sorted_duplicates_kept "R" [⟨"2020-01", "1,0", "A"⟩, ⟨"2020-01", "2,0", "B"⟩]
    [⟨24240, 1, "A", "R"⟩, ⟨24240, 2, "B", "R"⟩] (by decide)

/-- Claim C5: a delimited row with a parseable date and a parseable
decimal-comma value yields exactly one Observation carrying the converted
value, and the conversion sends "3,5" to 3.5 = 7/2. -/
theorem C5_valid_row_single_observation (region d v s : String) (t : Nat) (q : ℚ)
    (hd : parseMonth ((stripQuotes d)).toList = some t)
    (hv : toFloat? ((commaToDot (stripQuotes v)).toList) = some (some q)) :
    load_insee_data region [[d, v, s]] = .series [⟨t, q, stripQuotes s, region⟩] ∧
    toFloat? ((commaToDot (stripQuotes "3,5")).toList) = some (some ((7 : ℚ) / 2)) := by
  refine ⟨?_, by decide⟩
  have hrv : rowValue ⟨d, v, s⟩ = some (some q) := hv
  have hrd : rowDate ⟨d, v, s⟩ = some t := hd
  have hmap : [[d, v, s]].map toRawRow = [(⟨d, v, s⟩ : RawRow)] := by
    simp [toRawRow]
  rw [load_insee_data, if_pos (by simp [tableWidth]), hmap, normalizeRows,
    if_pos (by simp [hrv])]
  simp [sortObs, List.filterMap_cons, rowObs?, hrd, hrv]

/-- Claim C5 witness: the single-row table with date 2020-01 and value "3,5". -/
theorem C5_valid_row_single_observation_witness :
    load_insee_data "Marne" [["2020-01", "3,5", "A"]] =
      .series [⟨24240, 7 / 2, stripQuotes "A", "Marne"⟩] ∧
    toFloat? ((commaToDot (stripQuotes "3,5")).toList) = some (some ((7 : ℚ) / 2)) :=
  C5_valid_row_single_observation "Marne" "2020-01" "3,5" "A" 24240 (7 / 2)
    (by decide) (by decide)

/-- Claim C9: entry selection fails exactly when the archive holds no .csv
entry; any selected entry is a .csv entry of the archive; if some .csv entry
carries a marker token the selected entry carries one too; and with no
marker-named .csv entry the first .csv entry is selected. -/
theorem C9_entry_selection (names : List String) :
    (selectDataFile names = none ↔ names.filter isCsvName = []) ∧
    (∀ f, selectDataFile names = some f → f ∈ names ∧ isCsvName f = true) ∧
    (∀ f, f ∈ names → isCsvName f = true → markerMatch f = true →
      ∃ g, selectDataFile names = some g ∧ markerMatch g = true) ∧
    ((∀ f ∈ names, isCsvName f = true → markerMatch f = false) →
      selectDataFile names = (names.filter isCsvName).head?) := by
  rw [selectDataFile]
  cases hcs : names.filter isCsvName with
  | nil =>
    refine ⟨by simp, ?_, ?_, by simp⟩
    · intro f hf
      simp at hf
    · intro f hf hcsv hm
      have hmem : f ∈ names.filter isCsvName := List.mem_filter.mpr ⟨hf, hcsv⟩
      rw [hcs] at hmem
      cases hmem
  | cons c cs =>
    rw [if_neg (by simp)]
    cases hm : (c :: cs).filter markerMatch with
    | nil =>
      rw [if_pos (by simp)]
      refine ⟨by simp, ?_, ?_, fun _ => rfl⟩
      · intro f hf
        have hfc : c = f := by simpa using hf
        have hmem : f ∈ names.filter isCsvName := by
          rw [hcs, ← hfc]
          exact List.mem_cons_self c cs
        exact ⟨(List.mem_filter.mp hmem).1, (List.mem_filter.mp hmem).2⟩
      · intro f hf hcsv hmm
        have hmem : f ∈ (c :: cs).filter markerMatch := by
          rw [← hcs]
          exact List.mem_filter.mpr ⟨List.mem_filter.mpr ⟨hf, hcsv⟩, hmm⟩
        rw [hm] at hmem
        cases hmem
    | cons g gs =>
      rw [if_neg (by simp)]
      have hg : g ∈ (c :: cs).filter markerMatch := by
        rw [hm]
        exact List.mem_cons_self g gs
      have hgcsv : g ∈ names.filter isCsvName := by
        rw [hcs]
        exact (List.mem_filter.mp hg).1
      refine ⟨by simp, ?_, ?_, ?_⟩
      · intro f hf
        have hfg : g = f := by simpa using hf
        rw [← hfg]
        exact ⟨(List.mem_filter.mp hgcsv).1, (List.mem_filter.mp hgcsv).2⟩
      · intro f _ _ _
        exact ⟨g, by simp, (List.mem_filter.mp hg).2⟩
      · intro hnone
        have hfm := hnone g (List.mem_filter.mp hgcsv).1 (List.mem_filter.mp hgcsv).2
        have hgm := (List.mem_filter.mp hg).2
        rw [hfm] at hgm
        cases hgm

/-- Claim C9 witness: an archive with no .csv entry fails, by the first part
of the selection theorem. -/
theorem C9_entry_selection_witness :
    selectDataFile ["lisez-moi.txt", "notice.pdf"] = none :=
  (C9_entry_selection ["lisez-moi.txt", "notice.pdf"]).1.mpr (by decide)

/-- Claim C10: when the decoded table has fewer than 3 columns the function
performs no normalization and returns the raw table with only the Region
column appended - neither the failed outcome nor a Series. -/
theorem C10_narrow_table_returned_raw (region : String) (rows : List (List String))
    (h : tableWidth rows < 3) :
    load_insee_data region rows = .raw (rows.map (fun r => r ++ [region])) ∧
    (∀ obs, load_insee_data region rows ≠ .series obs) ∧
    load_insee_data region rows ≠ .failed := by
  have hne : ¬ 3 ≤ tableWidth rows := by omega
  rw [load_insee_data, if_neg hne]
  exact ⟨rfl, fun obs hc => LoadResult.noConfusion hc, fun hc => LoadResult.noConfusion hc⟩

/-- Claim C10 witness: a two-column table is returned raw with the Region
column appended. -/
theorem C10_narrow_table_returned_raw_witness :
    load_insee_data "R" [["2020-01", "5"]] = .raw [["2020-01", "5", "R"]] :=
  (C10_narrow_table_returned_raw "R" [["2020-01", "5"]] (by decide)).1

lemma asfreq_cons (p : Nat × ℚ) (rest : List (Nat × ℚ)) :
    asfreqMS (p :: rest) =
      (monthsRange p.1 ((p :: rest).getLastD p).1).map
        (fun t => ((p :: rest).find? (fun q => q.1 == t)).map Prod.snd) := rfl

lemma asfreq_length (p : Nat × ℚ) (rest : List (Nat × ℚ)) :
    (asfreqMS (p :: rest)).length = ((p :: rest).getLastD p).1 + 1 - p.1 := by
  rw [asfreq_cons, monthsRange]
  simp

lemma asfreq_getD (p : Nat × ℚ) (rest : List (Nat × ℚ)) (i : Nat)
    (h : i < ((p :: rest).getLastD p).1 + 1 - p.1) :
    (asfreqMS (p :: rest)).getD i none =
      ((p :: rest).find? (fun q => q.1 == p.1 + i)).map Prod.snd := by
  rw [asfreq_cons, monthsRange, List.map_map, List.getD_eq_getElem?_getD,
    List.getElem?_map, List.getElem?_range h]
  rfl

lemma asfreq_getD_zero (p : Nat × ℚ) (rest : List (Nat × ℚ))
    (hne : 0 < (asfreqMS (p :: rest)).length) :
    (asfreqMS (p :: rest)).getD 0 none = some p.2 := by
  rw [asfreq_getD p rest 0 (by rwa [asfreq_length] at hne)]
  rw [List.find?_cons_of_pos _ (by simp)]
  rfl

lemma asfreq_getD_last_isSome (p : Nat × ℚ) (rest : List (Nat × ℚ))
    (hne : 0 < (asfreqMS (p :: rest)).length) :
    ((asfreqMS (p :: rest)).getD ((asfreqMS (p :: rest)).length - 1) none).isSome := by
  have hlen := asfreq_length p rest
  rw [asfreq_getD p rest _ (by omega)]
  have hmonth : p.1 + ((asfreqMS (p :: rest)).length - 1) =
      ((p :: rest).getLastD p).1 := by
    omega
  simp only [hmonth]
  rw [Option.isSome_map']
  rw [List.find?_isSome]
  refine ⟨(p :: rest).getLastD p, ?_, by simp⟩
  rw [List.getLastD_cons]
  exact List.getLastD_mem_cons rest p

lemma map_getD_range (v : List (Option ℚ)) :
    (List.range v.length).map (fun k => v.getD k none) = v := by
  apply List.ext_getElem
  · simp
  · intro i h1 h2
    simp [List.getD_eq_getElem?_getD, List.getElem?_eq_getElem h2]

lemma fillnaMean_of_all_isSome {v : List (Option ℚ)} (h : ∀ o ∈ v, o.isSome) :
    fillnaMean v = v := by
  rw [fillnaMean]
  have hcong : v.map (fun o => some (o.getD (seriesMean v))) = v.map id := by
    apply List.map_congr_left
    intro o ho
    rcases Option.isSome_iff_exists.mp (h o ho) with ⟨x, hx⟩
    rw [hx]
    rfl
  rw [hcong, List.map_id]

lemma interpAt_of_isSome {v : List (Option ℚ)} {k : Nat}
    (h : (v.getD k none).isSome) : interpAt v k = v.getD k none := by
  rcases Option.isSome_iff_exists.mp h with ⟨x, hx⟩
  unfold interpAt
  rw [hx]

lemma interpolateLinear_of_all_isSome {v : List (Option ℚ)}
    (h : ∀ o ∈ v, o.isSome) : interpolateLinear v = v := by
  rw [interpolateLinear]
  have hcong : (List.range v.length).map (interpAt v) =
      (List.range v.length).map (fun k => v.getD k none) := by
    apply List.map_congr_left
    intro k hk
    have hkv : k < v.length := List.mem_range.mp hk
    have hgd : v.getD k none = v[k] := by
      simp [List.getD_eq_getElem?_getD, List.getElem?_eq_getElem hkv]
    apply interpAt_of_isSome
    rw [hgd]
    exact h _ (List.getElem_mem hkv)
  rw [hcong, map_getD_range]

lemma prevKnown_isSome {v : List (Option ℚ)} {k : Nat}
    (h0 : (v.getD 0 none).isSome) : (prevKnown v k).isSome := by
  rw [prevKnown, List.head?_isSome]
  rcases Option.isSome_iff_exists.mp h0 with ⟨x, hx⟩
  have hmem : ((0 : Nat), x) ∈ (List.range (k + 1)).reverse.filterMap
      (fun i => (v.getD i none).map (fun y => (i, y))) :=
    List.mem_filterMap.mpr ⟨0, by simp, by rw [hx]; rfl⟩
  exact List.ne_nil_of_mem hmem

lemma nextKnown_isSome {v : List (Option ℚ)} {k : Nat} (hk : k < v.length)
    (hl : (v.getD (v.length - 1) none).isSome) : (nextKnown v k).isSome := by
  rw [nextKnown, List.head?_isSome]
  rcases Option.isSome_iff_exists.mp hl with ⟨x, hx⟩
  have hmem : ((v.length - 1 : Nat), x) ∈
      ((List.range (v.length - k)).map (fun j => k + j)).filterMap
        (fun i => (v.getD i none).map (fun y => (i, y))) := by
    apply List.mem_filterMap.mpr
    refine ⟨v.length - 1, ?_, by rw [hx]; rfl⟩
    apply List.mem_map.mpr
    exact ⟨v.length - 1 - k, List.mem_range.mpr (by omega), by omega⟩
  exact List.ne_nil_of_mem hmem

lemma interpAt_isSome {v : List (Option ℚ)} {k : Nat} (hk : k < v.length)
    (h0 : (v.getD 0 none).isSome) (hl : (v.getD (v.length - 1) none).isSome) :
    (interpAt v k).isSome := by
  unfold interpAt
  cases hv : v.getD k none with
  | some x => simp
  | none =>
    have hp : (prevKnown v k).isSome := prevKnown_isSome h0
    have hn : (nextKnown v k).isSome := nextKnown_isSome hk hl
    rcases Option.isSome_iff_exists.mp hp with ⟨⟨i, a⟩, hpa⟩
    rcases Option.isSome_iff_exists.mp hn with ⟨⟨j, b⟩, hnb⟩
    rw [hpa, hnb]
    simp

/-- Claim C4: the monthly grid of a Series runs from its first to its last
observation, which are both present, so linear interpolation leaves no
missing point; the set of points the mean-fill step of line 363 has to fill
is therefore empty and that step changes no value, which also makes the
claim's fill rule hold vacuously. -/
theorem C4_mean_fill_is_noop (obs : List Obs) :
    (∀ o ∈ interpolateLinear (asfreqMS (pts obs)), o.isSome) ∧
    fillnaMean (interpolateLinear (asfreqMS (pts obs))) =
      interpolateLinear (asfreqMS (pts obs)) := by
  have hall : ∀ o ∈ interpolateLinear (asfreqMS (pts obs)), o.isSome := by
    cases obs with
    | nil =>
      intro o ho
      simp [pts, asfreqMS, interpolateLinear] at ho
    | cons a rest =>
      intro o ho
      rw [interpolateLinear] at ho
      rcases List.mem_map.mp ho with ⟨k, hk, rfl⟩
      have hkl : k < (asfreqMS (pts (a :: rest))).length := List.mem_range.mp hk
      have hpos : 0 < (asfreqMS (pts (a :: rest))).length := by omega
      have hpts : pts (a :: rest) = (a.timestamp, a.value) :: pts rest := rfl
      apply interpAt_isSome hkl
      · rw [hpts, asfreq_getD_zero _ _ (by rwa [hpts] at hpos)]
        rfl
      · rw [hpts]
        exact asfreq_getD_last_isSome _ _ (by rwa [hpts] at hpos)
  exact ⟨hall, fillnaMean_of_all_isSome hall⟩

/-- Claim C4 witness: on the gap series obsGap the interpolated grid is fully
known and the mean-fill step is the identity. -/
theorem C4_mean_fill_is_noop_witness :
    fillnaMean (interpolateLinear (asfreqMS (pts obsGap))) =
      interpolateLinear (asfreqMS (pts obsGap)) :=
  (C4_mean_fill_is_noop obsGap).2

lemma getLastD_fst_contig (rest : List (Nat × ℚ)) :
    ∀ p : Nat × ℚ, List.Chain' (fun a b => b.1 = a.1 + 1) (p :: rest) →
      ((p :: rest).getLastD p).1 = p.1 + rest.length := by
  induction rest with
  | nil =>
    intro p _
    rfl
  | cons b t ih =>
    intro p h
    rw [List.chain'_cons] at h
    obtain ⟨h1, h2⟩ := h
    have hb := ih b h2
    simp only [List.getLastD_cons, List.length_cons] at hb ⊢
    omega

lemma getLastD_fst_ge (rest : List (Nat × ℚ)) :
    ∀ p : Nat × ℚ, List.Chain' (fun a b => a.1 < b.1) (p :: rest) →
      p.1 + rest.length ≤ ((p :: rest).getLastD p).1 := by
  induction rest with
  | nil =>
    intro p _
    simp
  | cons b t ih =>
    intro p h
    rw [List.chain'_cons] at h
    obtain ⟨h1, h2⟩ := h
    have hb := ih b h2
    simp only [List.getLastD_cons, List.length_cons] at hb ⊢
    omega

lemma find_contig (rest : List (Nat × ℚ)) :
    ∀ (p : Nat × ℚ) (i : Nat), List.Chain' (fun a b => b.1 = a.1 + 1) (p :: rest) →
      i < rest.length + 1 →
      (p :: rest).find? (fun q => q.1 == p.1 + i) = some ((p :: rest).getD i p) := by
  induction rest with
  | nil =>
    intro p i _ hi
    simp only [List.length_nil] at hi
    have hi0 : i = 0 := by omega
    subst hi0
    rw [List.find?_cons_of_pos _ (by simp)]
    rfl
  | cons b t ih =>
    intro p i h hi
    rw [List.chain'_cons] at h
    obtain ⟨h1, h2⟩ := h
    cases i with
    | zero =>
      rw [List.find?_cons_of_pos _ (by simp)]
      rfl
    | succ i =>
      rw [List.find?_cons_of_neg _ (by simp)]
      have hrw : p.1 + (i + 1) = b.1 + i := by omega
      simp only [hrw]
      rw [ih b i h2 (by simp only [List.length_cons] at hi; omega)]
      have hit : i < (b :: t).length := by
        simp only [List.length_cons] at hi ⊢
        omega
      simp only [List.getD_cons_succ]
      congr 1
      rw [List.getD_eq_getElem?_getD, List.getD_eq_getElem?_getD,
        List.getElem?_eq_getElem hit]
      rfl

lemma asfreqMS_contig (p : Nat × ℚ) (rest : List (Nat × ℚ))
    (h : List.Chain' (fun a b => b.1 = a.1 + 1) (p :: rest)) :
    asfreqMS (p :: rest) = (p :: rest).map (fun q => some q.2) := by
  have hlast := getLastD_fst_contig rest p h
  apply List.ext_getElem
  · rw [asfreq_length, hlast]
    simp only [List.length_map, List.length_cons]
    omega
  · intro i h1 h2
    have hi : i < rest.length + 1 := by
      simp only [List.length_map, List.length_cons] at h2
      omega
    have e1 : (asfreqMS (p :: rest))[i] = (asfreqMS (p :: rest)).getD i none := by
      rw [List.getD_eq_getElem?_getD, List.getElem?_eq_getElem h1]
      rfl
    rw [e1, asfreq_getD p rest i (by rw [asfreq_length] at h1; exact h1)]
    rw [find_contig rest p i h hi]
    have hip : i < (p :: rest).length := by
      simp only [List.length_cons]
      omega
    rw [List.getElem_map]
    have e2 : (p :: rest).getD i p = (p :: rest)[i] := by
      rw [List.getD_eq_getElem?_getD, List.getElem?_eq_getElem hip]
      rfl
    rw [e2]
    rfl

/-- Claim C8: aligning an already contiguous monthly Series yields exactly its
values (same length and values), and the interpolation and mean-fill steps
leave an already-complete aligned series unchanged (idempotence). -/
theorem C8_roundtrip_and_idempotence (obs : List Obs)
    (h : List.Chain' (fun a b : Obs => b.timestamp = a.timestamp + 1) obs) :
    asfreqMS (pts obs) = obs.map (fun o => some o.value) ∧
    alignValues obs = obs.map (fun o => o.value) ∧
    (∀ v : List (Option ℚ), (∀ o ∈ v, o.isSome) →
      interpolateLinear v = v ∧ fillnaMean v = v) := by
  have hfreq : asfreqMS (pts obs) = obs.map (fun o => some o.value) := by
    cases obs with
    | nil => rfl
    | cons a rest =>
      have hp : List.Chain' (fun q r : Nat × ℚ => r.1 = q.1 + 1)
          ((a.timestamp, a.value) :: pts rest) := by
        have hshape : (a.timestamp, a.value) :: pts rest = pts (a :: rest) := rfl
        rw [hshape, pts, List.chain'_map]
        exact h
      have hcontig := asfreqMS_contig (a.timestamp, a.value) (pts rest) hp
      have hshape : pts (a :: rest) = (a.timestamp, a.value) :: pts rest := rfl
      rw [hshape, hcontig]
      have hmap : (a.timestamp, a.value) :: pts rest =
          (a :: rest).map (fun o => (o.timestamp, o.value)) := rfl
      rw [hmap, List.map_map]
      rfl
  have hidem : ∀ v : List (Option ℚ), (∀ o ∈ v, o.isSome) →
      interpolateLinear v = v ∧ fillnaMean v = v := fun _ hv =>
    ⟨interpolateLinear_of_all_isSome hv, fillnaMean_of_all_isSome hv⟩
  have hall : ∀ o ∈ asfreqMS (pts obs), o.isSome := by
    rw [hfreq]
    intro o ho
    rcases List.mem_map.mp ho with ⟨x, _, rfl⟩
    rfl
  refine ⟨hfreq, ?_, hidem⟩
  simp only [alignValues]
  rw [interpolateLinear_of_all_isSome hall, fillnaMean_of_all_isSome hall, hfreq,
    List.map_map]
  rfl

/-- Claim C8 witness: the two-point contiguous series obs2c, and idempotence
on a concrete complete grid. -/
theorem C8_roundtrip_and_idempotence_witness :
    asfreqMS (pts obs2c) = obs2c.map (fun o => some o.value) ∧
    alignValues obs2c = obs2c.map (fun o => o.value) ∧
    (interpolateLinear [some (1 : ℚ), some 2] = [some 1, some 2] ∧
      fillnaMean [some (1 : ℚ), some 2] = [some 1, some 2]) :=
  have hch : List.Chain' (fun a b : Obs => b.timestamp = a.timestamp + 1) obs2c := by
    unfold obs2c
    exact List.chain'_cons.mpr ⟨by decide, List.chain'_singleton _⟩
  ⟨(C8_roundtrip_and_idempotence obs2c hch).1,
   (C8_roundtrip_and_idempotence obs2c hch).2.1,
   (C8_roundtrip_and_idempotence obs2c hch).2.2 [some 1, some 2] (by simp)⟩

lemma length_alignValues (obs : List Obs) :
    (alignValues obs).length = (asfreqMS (pts obs)).length := by
  simp [alignValues, fillnaMean, interpolateLinear]

lemma length_asfreq_ge (obs : List Obs)
    (h : List.Chain' (fun a b : Obs => a.timestamp < b.timestamp) obs) :
    obs.length ≤ (asfreqMS (pts obs)).length := by
  cases obs with
  | nil => simp [pts, asfreqMS]
  | cons a rest =>
    have hp : List.Chain' (fun q r : Nat × ℚ => q.1 < r.1)
        ((a.timestamp, a.value) :: pts rest) := by
      have hshape : (a.timestamp, a.value) :: pts rest = pts (a :: rest) := rfl
      rw [hshape, pts, List.chain'_map]
      exact h
    have hge := getLastD_fst_ge (pts rest) (a.timestamp, a.value) hp
    have hshape : pts (a :: rest) = (a.timestamp, a.value) :: pts rest := rfl
    rw [hshape, asfreq_length]
    have hlenpts : (pts rest).length = rest.length := by simp [pts]
    simp only [List.length_cons]
    omega

/-- Claim C6 (counterexample): obsGap has only 2 observations but its aligned
series spans 30 points, more than 24, yet decomposition is not attempted -
the outer guard tests the pre-alignment length, not the aligned length. -/
theorem C6_aligned_length_not_sufficient :
    24 < (alignValues obsGap).length ∧
    runDecomposition obsGap = .insufficientHistory := by
  refine ⟨?_, by decide⟩
  rw [length_alignValues]
  decide

/-- Claim C6 (amended): decomposition is attempted iff the normalized series
itself has more than 24 points; the code also guards on the aligned length,
but the aligned grid is never shorter than a strictly increasing series, so
that inner guard is then automatic; the 12-point year obs12 receives the
insufficient-history outcome, not a Decomposition. -/
theorem C6_guard_is_processed_length (obs : List Obs)
    (h : List.Chain' (fun a b : Obs => a.timestamp < b.timestamp) obs) :
    (runDecomposition obs ≠ .insufficientHistory ↔ 24 < obs.length) ∧
    runDecomposition obs12 = .insufficientHistory := by
  refine ⟨?_, by decide⟩
  by_cases h24 : 24 < obs.length
  · have h2 : 24 < (alignValues obs).length := by
      rw [length_alignValues]
      have := length_asfreq_ge obs h
      omega
    simp only [runDecomposition]
    rw [if_pos h24, if_pos h2]
    constructor
    · intro _
      exact h24
    · intro _
      exact fun hc => DecompResult.noConfusion hc
  · simp only [runDecomposition]
    rw [if_neg h24]
    constructor
    · intro hc
      exact absurd rfl hc
    · intro hlt
      exact absurd hlt h24

/-- Claim C6 witness: the amended guard statement applied to obsGap. -/
theorem C6_guard_is_processed_length_witness :
    (runDecomposition obsGap ≠ .insufficientHistory ↔ 24 < obsGap.length) ∧
    runDecomposition obs12 = .insufficientHistory :=
  C6_guard_is_processed_length obsGap (by
    unfold obsGap
    exact List.chain'_cons.mpr ⟨by decide, List.chain'_singleton _⟩)

/-- Claim C3 (counterexample): wObs is decomposed (25 aligned points) and
index 19 is neither among the first 6 indices nor among the last 5, yet the
trend is undefined there - statsmodels pads 6 NaN at the tail, not 5. -/
theorem C3_trend_undefined_sixth_from_end :
    24 < (alignValues wObs).length ∧
    6 ≤ 19 ∧ 19 < (alignValues wObs).length - 5 ∧
    trendAt (alignValues wObs) 19 = none := by
  decide

/-- Claim C3 (amended): for every decomposed aligned series the trend is
undefined at exactly the first 6 and the last 6 indices, and where it is
defined it equals the centered moving average of window size 12, i.e. the
mean of the two adjacent 12-point window means. -/
theorem C3_trend_centered_moving_average (x : List ℚ) (h24 : 24 < x.length) :
    (∀ k, k < x.length → ((trendAt x k).isSome ↔ 6 ≤ k ∧ k + 6 < x.length)) ∧
    (∀ m, m + 12 < x.length →
      trendAt x (m + 6) = some ((window12Mean x m + window12Mean x (m + 1)) / 2)) := by
  constructor
  · intro k _
    by_cases hc : 6 ≤ k ∧ k + 6 < x.length
    · simp [trendAt, hc]
    · simp [trendAt, hc]
  · intro m hm
    have hc : 6 ≤ m + 6 ∧ m + 6 + 6 < x.length := ⟨by omega, by omega⟩
    rw [trendAt, if_pos hc]
    have e6 : m + 6 - 6 = m := by omega
    have e5 : m + 6 - 5 = m + 1 := by omega
    have e4 : m + 6 - 4 = m + 2 := by omega
    have e3 : m + 6 - 3 = m + 3 := by omega
    have e2 : m + 6 - 2 = m + 4 := by omega
    have e1 : m + 6 - 1 = m + 5 := by omega
    have f1 : m + 6 + 1 = m + 7 := by omega
    have f2 : m + 6 + 2 = m + 8 := by omega
    have f3 : m + 6 + 3 = m + 9 := by omega
    have f4 : m + 6 + 4 = m + 10 := by omega
    have f5 : m + 6 + 5 = m + 11 := by omega
    have f6 : m + 6 + 6 = m + 12 := by omega
    rw [e6, e5, e4, e3, e2, e1, f1, f2, f3, f4, f5, f6, window12Mean, window12Mean]
    have g1 : m + 1 + 1 = m + 2 := by omega
    have g2 : m + 1 + 2 = m + 3 := by omega
    have g3 : m + 1 + 3 = m + 4 := by omega
    have g4 : m + 1 + 4 = m + 5 := by omega
    have g5 : m + 1 + 5 = m + 6 := by omega
    have g6 : m + 1 + 6 = m + 7 := by omega
    have g7 : m + 1 + 7 = m + 8 := by omega
    have g8 : m + 1 + 8 = m + 9 := by omega
    have g9 : m + 1 + 9 = m + 10 := by omega
    have g10 : m + 1 + 10 = m + 11 := by omega
    have g11 : m + 1 + 11 = m + 12 := by omega
    rw [g1, g2, g3, g4, g5, g6, g7, g8, g9, g10, g11]
    congr 1
    ring

/-- Claim C3 witness: the amended trend statement applied to the decomposed
25-point aligned series of wObs at offset 0. -/
theorem C3_trend_centered_moving_average_witness :
    trendAt (alignValues wObs) (0 + 6) =
      some ((window12Mean (alignValues wObs) 0 + window12Mean (alignValues wObs) (0 + 1)) / 2) :=
  (C3_trend_centered_moving_average (alignValues wObs) (by decide)).2 0 (by decide)

lemma sum_map_sub_const (l : List Nat) (f : Nat → ℚ) (c : ℚ) :
    (l.map (fun i => f i - c)).sum = (l.map f).sum - l.length * c := by
  induction l with
  | nil => simp
  | cons a t ih =>
    simp only [List.map_cons, List.sum_cons, ih, List.length_cons]
    push_cast
    ring

/-- Claim C7: for every decomposed series the 12 normalized seasonal indices
sum to exactly 0 in exact arithmetic, hence within any floating-point
tolerance of 0. -/
theorem C7_seasonal_indices_sum_zero (obs : List Obs) (d : Decomposition)
    (h : runDecomposition obs = .done d) :
    ((List.range 12).map (fun i => seasonalIndex (alignValues obs) i)).sum = 0 := by
  have hs := sum_map_sub_const (List.range 12) (rawSeasonal (alignValues obs))
    ((((List.range 12).map (rawSeasonal (alignValues obs))).sum) / 12)
  simp only [seasonalIndex]
  rw [hs, List.length_range]
  push_cast
  ring

/-- Claim C7 witness: the seasonal indices of the decomposed series wObs sum
to 0. -/
theorem C7_seasonal_indices_sum_zero_witness :
    ((List.range 12).map (fun i => seasonalIndex (alignValues wObs) i)).sum = 0 :=
  C7_seasonal_indices_sum_zero wObs wDecomp (by decide)

end HotelDashboard
